import Mathlib

/-!
Verification of the cfst-batch2 worker-isolation scripts.

Shallow embedding of:
- `scripts/git_worktree_isolation.py` (path containment, slug sanitizing,
  branch naming, worktree create/remove with rollback, sandbox manifest),
- `scripts/worker_sandbox.py` (manifest validation and worker execution),
- `scripts/checkpoint_output_commits.py` (output-only staged-path check),
- `scripts/safe_calc.py` (restricted AST arithmetic evaluator).

Strings are modeled as Lean `String`s or `List Char` where character-level
operations matter; filesystem paths are modeled as an absolute flag plus a
list of path segments, and `Path.resolve()` (with no symlinks present) as
segment normalization that drops `.` and folds `..` into its parent.
Filesystem and git effects are modeled as explicit state records; the
outcome of an external step that can fail for environmental reasons
(a file copy, a `mkdir`, a `git` subprocess) is an injected boolean.
-/

namespace CfstBatch2

/-- One path segment (between two `/`). -/
abbrev Seg := String

/-- A POSIX path: absolute flag plus segments, as `pathlib.Path` parses it
(`Path` already drops empty segments; `.` and `..` segments may remain). -/
structure PyPath where
  absolute : Bool
  segs : List Seg
deriving DecidableEq, Repr

/-- Segment normalization of an absolute path with no symlinks, as performed
by `Path.resolve()`: `.` is dropped, `..` removes the previous segment
(at the root, `/..` stays `/`).  `acc` holds the already-normalized prefix
in reverse. -/
def normAux (acc : List Seg) : List Seg → List Seg
  | [] => acc.reverse
  | s :: rest =>
    if s = "." then normAux acc rest
    else if s = ".." then normAux acc.tail rest
    else normAux (s :: acc) rest

/-- `(root / raw).resolve()` for an already-canonical absolute `root` and a
relative `raw`: normalize the concatenated segment list. -/
def resolveJoin (root : PyPath) (raw : PyPath) : PyPath :=
  ⟨true, normAux [] (root.segs ++ raw.segs)⟩

/-- A segment is `clean` when it is neither `.` nor `..`. -/
def cleanSeg (s : Seg) : Prop := s ≠ "." ∧ s ≠ ".."

instance (s : Seg) : Decidable (cleanSeg s) := by unfold cleanSeg; infer_instance

/-- A canonical absolute root: absolute, and every segment clean (this is
what `Path.resolve()` guarantees for the repository root / worktree root). -/
def canonicalRoot (p : PyPath) : Prop :=
  p.absolute = true ∧ ∀ s ∈ p.segs, cleanSeg s

/-- `a.relative_to(b)` succeeds iff `b`'s segments are a prefix of `a`'s;
descendant-or-equal containment between two absolute paths. -/
def isUnder (p root : PyPath) : Prop :=
  p.absolute = true ∧ root.segs.IsPrefix p.segs

instance (p root : PyPath) : Decidable (isUnder p root) := by
  unfold isUnder
  infer_instance

/-- `_resolve_under_root(root, raw_path, label)` from
`git_worktree_isolation.py`: reject absolute inputs, resolve `root / raw`,
then require the result to be relative to `root`. -/
def resolve_under_root (root : PyPath) (raw : PyPath) : Except String PyPath :=
  if raw.absolute then
    .error "must be a relative path under root"
  else if root.segs.isPrefixOf (resolveJoin root raw).segs then
    .ok (resolveJoin root raw)
  else .error "escapes root"

/-- `_resolve_repo_relative(repo_root, raw_path)`: absolute inputs are
resolved as-is, relative ones against the repo root; the result must be
under the repo root, and the repo-relative remainder is returned too. -/
def resolve_repo_relative (root : PyPath) (raw : PyPath) :
    Except String (PyPath × List Seg) :=
  let absPath :=
    if raw.absolute then ⟨true, normAux [] raw.segs⟩ else resolveJoin root raw
  if root.segs.isPrefixOf absPath.segs then
    .ok (absPath, absPath.segs.drop root.segs.length)
  else .error "Path must be under repository root"

/- ### Normalization lemmas -/

theorem normAux_clean (acc : List Seg) (xs : List Seg)
    (h : ∀ s ∈ xs, cleanSeg s) : normAux acc xs = acc.reverse ++ xs := by
  induction xs generalizing acc with
  | nil => simp [normAux]
  | cons s rest ih =>
    have hs := h s (List.mem_cons_self s rest)
    have hrest : ∀ t ∈ rest, cleanSeg t := fun t ht => h t (List.mem_cons_of_mem s ht)
    unfold normAux
    rw [if_neg hs.1, if_neg hs.2, ih (s :: acc) hrest]
    simp

theorem normAux_append_clean (acc : List Seg) (xs ys : List Seg)
    (hy : ∀ s ∈ ys, cleanSeg s) :
    normAux acc (xs ++ ys) = (normAux acc xs).dropLast ++ ys ∨
    normAux acc (xs ++ ys) = normAux acc xs ++ ys := by
  induction xs generalizing acc with
  | nil => right; simp [normAux_clean acc ys hy, normAux]
  | cons s rest ih =>
    by_cases h1 : s = "."
    · simpa [normAux, h1] using ih acc
    · by_cases h2 : s = ".."
      · simpa [normAux, h1, h2] using ih acc.tail
      · simpa [normAux, h1, h2] using ih (s :: acc)

/-- Resolving a clean relative path against a canonical root simply appends
its segments. -/
theorem resolveJoin_clean (root : PyPath) (raw : PyPath)
    (hroot : canonicalRoot root) (hraw : ∀ s ∈ raw.segs, cleanSeg s) :
    resolveJoin root raw = ⟨true, root.segs ++ raw.segs⟩ := by
  unfold resolveJoin
  have : ∀ s ∈ root.segs ++ raw.segs, cleanSeg s := by
    intro s hs
    rcases List.mem_append.mp hs with h | h
    · exact hroot.2 s h
    · exact hraw s h
  rw [normAux_clean [] _ this]
  simp

/- ### C1: `_resolve_under_root` containment -/

/-- C1 counterexample: the relative path `a/../b` contains a `..` segment,
yet `_resolve_under_root` succeeds on it under root `/repo` (its
canonicalized resolution `/repo/b` is under the root), contradicting the
claim that resolve fails on every relative path containing `..`. -/
theorem C1_dotdot_can_succeed :
    (PyPath.mk false ["a", "..", "b"]).absolute = false ∧
    ".." ∈ (PyPath.mk false ["a", "..", "b"]).segs ∧
    resolve_under_root ⟨true, ["repo"]⟩ ⟨false, ["a", "..", "b"]⟩ =
      .ok ⟨true, ["repo", "b"]⟩ :=
  ⟨rfl, by simp, by rfl⟩

/-- C1 (amended): for a canonical root, `_resolve_under_root` fails on every
absolute path; every success returns the canonicalized resolution of
`root / raw`, an absolute path that is a descendant of (or equal to) the
root; it succeeds whenever that resolution lies under the root — in
particular on every `..`-free (and `.`-free) relative path. -/
theorem C1_resolve_under_root_contains (root raw : PyPath)
    (hroot : canonicalRoot root) :
    (raw.absolute = true → ∃ e, resolve_under_root root raw = .error e) ∧
    (∀ p, resolve_under_root root raw = .ok p →
      p = resolveJoin root raw ∧ isUnder p root) ∧
    (raw.absolute = false → isUnder (resolveJoin root raw) root →
      resolve_under_root root raw = .ok (resolveJoin root raw)) ∧
    (raw.absolute = false → (∀ s ∈ raw.segs, cleanSeg s) →
      resolve_under_root root raw = .ok ⟨true, root.segs ++ raw.segs⟩) := by
  refine ⟨?_, ?_, ?_, ?_⟩
  · intro habs
    refine ⟨"must be a relative path under root", ?_⟩
    simp [resolve_under_root, habs]
  · intro p hp
    unfold resolve_under_root at hp
    split at hp
    · cases hp
    · split at hp
      · rename_i hpre
        cases hp
        exact ⟨rfl, rfl, List.isPrefixOf_iff_prefix.mp hpre⟩
      · cases hp
  · intro habs hunder
    have hpre : root.segs.isPrefixOf (resolveJoin root raw).segs :=
      List.isPrefixOf_iff_prefix.mpr hunder.2
    simp [resolve_under_root, habs, hpre]
  · intro habs hclean
    have hjoin := resolveJoin_clean root raw hroot hclean
    have hunder : isUnder (resolveJoin root raw) root := by
      rw [hjoin]
      exact ⟨rfl, raw.segs, rfl⟩
    have hpre : root.segs.isPrefixOf (resolveJoin root raw).segs :=
      List.isPrefixOf_iff_prefix.mpr hunder.2
    simp [resolve_under_root, habs, hpre, hjoin]

/-- Witness for C1: concrete instances of each conjunct at root `/repo`. -/
theorem C1_resolve_under_root_contains_witness :
    resolve_under_root ⟨true, ["repo"]⟩ ⟨false, ["papers", "P1"]⟩ =
      .ok ⟨true, ["repo", "papers", "P1"]⟩ ∧
    (∃ e, resolve_under_root ⟨true, ["repo"]⟩ ⟨true, ["etc"]⟩ = .error e) := by
  have h1 := C1_resolve_under_root_contains ⟨true, ["repo"]⟩
    ⟨false, ["papers", "P1"]⟩ (by constructor <;> simp [cleanSeg])
  have h2 := C1_resolve_under_root_contains ⟨true, ["repo"]⟩
    ⟨true, ["etc"]⟩ (by constructor <;> simp [cleanSeg])
  refine ⟨h1.2.2.2 rfl ?_, h2.1 rfl⟩
  intro s hs
  simp at hs
  rcases hs with h | h <;> simp [h, cleanSeg]

/- ### C8: `_sanitize_slug` -/

/-- The whitespace characters removed by Python's `str.strip()`. -/
def pyWs (c : Char) : Bool :=
  c == ' ' || c == '\t' || c == '\n' || c == '\r' ||
    c == (Char.ofNat 11) || c == (Char.ofNat 12)

/-- The safe identifier alphabet `[A-Za-z0-9._-]` of `_sanitize_slug`. -/
def safeChar (c : Char) : Bool :=
  ('A' ≤ c && c ≤ 'Z') || ('a' ≤ c && c ≤ 'z') || ('0' ≤ c && c ≤ '9') ||
    c == '.' || c == '_' || c == '-'

/-- The separator characters trimmed by `.strip("-_.")`. -/
def sepChar (c : Char) : Bool := c == '-' || c == '_' || c == '.'

/-- `re.sub(r"[^A-Za-z0-9._-]+", "-", s)`: each maximal run of characters
outside the safe alphabet is replaced by one dash. -/
def subUnsafeRuns : List Char → List Char
  | [] => []
  | c :: cs =>
    if safeChar c then c :: subUnsafeRuns cs
    else '-' :: subUnsafeRuns (cs.dropWhile (fun x => !safeChar x))
termination_by l => l.length
decreasing_by
  · simp
  · have := (List.dropWhile_sublist (l := cs) (fun x => !safeChar x)).length_le
    simp
    omega

/-- Python `s.strip(chars)`: drop characters satisfying `p` from both ends. -/
def pyStrip (p : Char → Bool) (l : List Char) : List Char :=
  List.rdropWhile p (l.dropWhile p)

/-- `_sanitize_slug(raw)` from `git_worktree_isolation.py`:
`cleaned = re.sub(r"[^A-Za-z0-9._-]+", "-", raw.strip())`, then
`cleaned = cleaned.strip("-_.")`, then `return cleaned or "paper"`. -/
def sanitize_slug (raw : List Char) : List Char :=
  let cleaned := pyStrip sepChar (subUnsafeRuns (pyStrip pyWs raw))
  if cleaned = [] then "paper".data else cleaned

theorem mem_subUnsafeRuns_safe (l : List Char) :
    ∀ c ∈ subUnsafeRuns l, safeChar c = true := by
  induction l using subUnsafeRuns.induct with
  | case1 => intro c hc; simp [subUnsafeRuns] at hc
  | case2 c cs hsafe ih =>
    intro d hd
    rw [subUnsafeRuns, if_pos hsafe] at hd
    rcases List.mem_cons.mp hd with h | h
    · exact h ▸ hsafe
    · exact ih d h
  | case3 c cs hsafe ih =>
    intro d hd
    rw [subUnsafeRuns, if_neg hsafe] at hd
    rcases List.mem_cons.mp hd with h | h
    · subst h; rfl
    · exact ih d h

theorem mem_pyStrip (p : Char → Bool) (l : List Char) :
    ∀ c ∈ pyStrip p l, c ∈ l := by
  intro c hc
  have h1 : c ∈ l.dropWhile p :=
    (List.rdropWhile_prefix p _).subset hc
  exact (List.dropWhile_sublist p).subset h1

theorem pyStrip_head_not (p : Char → Bool) (l : List Char)
    (h : pyStrip p l ≠ []) : p ((pyStrip p l).head h) = false := by
  unfold pyStrip at *
  have hpre : List.rdropWhile p (l.dropWhile p) <+: l.dropWhile p :=
    List.rdropWhile_prefix p _
  have hd : l.dropWhile p ≠ [] := by
    intro hnil
    exact h (by simp [hnil, List.rdropWhile_nil])
  rw [List.IsPrefix.head hpre h]
  exact List.head_dropWhile_not p l hd

theorem pyStrip_last_not (p : Char → Bool) (l : List Char)
    (h : pyStrip p l ≠ []) : p ((pyStrip p l).getLast h) = false := by
  unfold pyStrip at *
  exact eq_false_of_ne_true (List.rdropWhile_last_not p _ h)

/-- C8: `_sanitize_slug` always returns a non-empty token over the safe
alphabet, with no separator character (`-`, `_`, `.`) at either end, and
returns the default token `"paper"` exactly when cleaning and trimming
leave nothing. -/
theorem C8_sanitize_slug_safe (raw : List Char) :
    sanitize_slug raw ≠ [] ∧
    (∀ c ∈ sanitize_slug raw, safeChar c = true) ∧
    (∀ h : sanitize_slug raw ≠ [],
      sepChar ((sanitize_slug raw).head h) = false ∧
      sepChar ((sanitize_slug raw).getLast h) = false) ∧
    (pyStrip sepChar (subUnsafeRuns (pyStrip pyWs raw)) = [] →
      sanitize_slug raw = "paper".data) := by
  unfold sanitize_slug
  by_cases hnil : pyStrip sepChar (subUnsafeRuns (pyStrip pyWs raw)) = []
  · rw [if_pos hnil]
    refine ⟨by simp, ?_, ?_, by simp [hnil]⟩
    · intro c hc
      simp [String.data] at hc
      rcases hc with h | h | h | h | h <;> subst h <;> rfl
    · intro h
      constructor <;> rfl
  · rw [if_neg hnil]
    refine ⟨hnil, ?_, ?_, ?_⟩
    · intro c hc
      exact mem_subUnsafeRuns_safe _ c (mem_pyStrip sepChar _ c hc)
    · intro h
      exact ⟨pyStrip_head_not sepChar _ h, pyStrip_last_not sepChar _ h⟩
    · intro h
      exact absurd h hnil

/-- Witness for C8 at the concrete raw identifier `" P@1 "`. -/
theorem C8_sanitize_slug_safe_witness :
    sanitize_slug " P@1 ".data ≠ [] ∧
    (∀ c ∈ sanitize_slug " P@1 ".data, safeChar c = true) :=
  ⟨(C8_sanitize_slug_safe " P@1 ".data).1,
   (C8_sanitize_slug_safe " P@1 ".data).2.1⟩

/- ### C3: branch/worktree name disambiguation in `_create` -/

/-- The decimal digit characters, as produced by f-string `{n}` formatting. -/
def digitChar (d : Nat) : Char :=
  match d with
  | 0 => '0' | 1 => '1' | 2 => '2' | 3 => '3' | 4 => '4'
  | 5 => '5' | 6 => '6' | 7 => '7' | 8 => '8' | _ => '9'

/-- Decimal representation of a natural number, most significant digit
first, as produced by f-string `{os.getpid()}` formatting. -/
def natDigits (n : Nat) : List Char :=
  if _h : n < 10 then [digitChar n]
  else natDigits (n / 10) ++ [digitChar (n % 10)]
termination_by n
decreasing_by
  exact Nat.div_lt_self (by omega) (by omega)

/-- Inverse digit value used only to prove `natDigits` injective. -/
def digitVal (c : Char) : Nat := c.toNat - 48

/-- Decimal decoding, inverse of `natDigits`. -/
def decVal (l : List Char) : Nat := l.foldl (fun a c => a * 10 + digitVal c) 0

theorem digitVal_digitChar (d : Nat) (h : d < 10) :
    digitVal (digitChar d) = d := by
  interval_cases d <;> rfl

theorem decVal_foldl (a : Nat) (n : Nat) :
    (natDigits n).foldl (fun a c => a * 10 + digitVal c) a =
      a * 10 ^ (natDigits n).length + n := by
  induction n using Nat.strong_induction_on generalizing a with
  | _ n ih =>
    by_cases h : n < 10
    · rw [natDigits, dif_pos h]
      simp [List.foldl, digitVal_digitChar n h]
    · rw [natDigits, dif_neg h]
      rw [List.foldl_append]
      have hlt : n / 10 < n := Nat.div_lt_self (by omega) (by omega)
      rw [ih (n / 10) hlt a]
      simp [List.foldl]
      rw [digitVal_digitChar (n % 10) (Nat.mod_lt n (by omega))]
      ring_nf
      omega

theorem decVal_natDigits (n : Nat) : decVal (natDigits n) = n := by
  unfold decVal
  rw [decVal_foldl 0 n]
  simp

theorem natDigits_injective (m n : Nat) (h : natDigits m = natDigits n) :
    m = n := by
  have := decVal_natDigits m
  rw [h, decVal_natDigits n] at this
  exact this.symm

theorem digitChar_ne_dash (d : Nat) : digitChar d ≠ '-' := by
  unfold digitChar
  split <;> decide

theorem mem_natDigits_ne_dash (n : Nat) : ∀ c ∈ natDigits n, c ≠ '-' := by
  induction n using Nat.strong_induction_on with
  | _ n ih =>
    intro c hc
    by_cases h : n < 10
    · rw [natDigits, dif_pos h] at hc
      simp at hc
      exact hc ▸ digitChar_ne_dash n
    · rw [natDigits, dif_neg h] at hc
      rcases List.mem_append.mp hc with h1 | h1
      · exact ih (n / 10) (Nat.div_lt_self (by omega) (by omega)) c h1
      · simp at h1
        exact h1 ▸ digitChar_ne_dash (n % 10)

/-- The maximal dash-free suffix of a character list. -/
def afterLastDash (l : List Char) : List Char :=
  (l.reverse.takeWhile (fun c => c != '-')).reverse

theorem takeWhile_append_sat (q : Char → Bool) (xs ys : List Char) (y : Char)
    (hx : ∀ x ∈ xs, q x = true) (hy : q y = false) :
    (xs ++ y :: ys).takeWhile q = xs := by
  induction xs with
  | nil => simp [List.takeWhile, hy]
  | cons a rest ih =>
    have ha := hx a (List.mem_cons_self a rest)
    simp [List.takeWhile, ha]
    exact ih fun x hxm => hx x (List.mem_cons_of_mem a hxm)

theorem afterLastDash_append (xs p : List Char)
    (hp : ∀ c ∈ p, c ≠ '-') : afterLastDash (xs ++ '-' :: p) = p := by
  unfold afterLastDash
  rw [List.reverse_append]
  simp only [List.reverse_cons]
  rw [List.append_assoc, List.singleton_append]
  rw [takeWhile_append_sat _ p.reverse _ '-'
    (fun x hxm => by
      simp only [bne_iff_ne, ne_eq]
      exact hp x (List.mem_reverse.mp hxm))
    (by decide)]
  simp

/-- `suffix = f"{stamp}-{Path.cwd().name}-{os.getpid()}"` in `_create`. -/
def createSuffix (stamp cwdName : List Char) (pid : Nat) : List Char :=
  stamp ++ '-' :: cwdName ++ '-' :: natDigits pid

/-- `branch = f"{args.branch_prefix}/{slug}-{suffix}"` in `_create`. -/
def branchName (bp slug stamp cwdName : List Char) (pid : Nat) : List Char :=
  bp ++ '/' :: slug ++ '-' :: createSuffix stamp cwdName pid

/-- The final path component of `wt_path = wt_root / f"{slug}-{suffix}"`. -/
def worktreeName (slug stamp cwdName : List Char) (pid : Nat) : List Char :=
  slug ++ '-' :: createSuffix stamp cwdName pid

/-- `wt_path` itself, a new entry directly under the worktrees root. -/
def worktreePath (wtRoot : PyPath) (slug stamp cwdName : List Char)
    (pid : Nat) : PyPath :=
  ⟨wtRoot.absolute, wtRoot.segs ++ [String.mk (worktreeName slug stamp cwdName pid)]⟩

theorem afterLastDash_createSuffix (stamp cwdName : List Char) (pid : Nat) :
    afterLastDash (createSuffix stamp cwdName pid) = natDigits pid := by
  unfold createSuffix
  have : stamp ++ '-' :: cwdName ++ '-' :: natDigits pid =
      (stamp ++ '-' :: cwdName) ++ '-' :: natDigits pid := by simp
  rw [this, afterLastDash_append _ _ (mem_natDigits_ne_dash pid)]

theorem afterLastDash_branchName (bp slug stamp cwdName : List Char)
    (pid : Nat) :
    afterLastDash (branchName bp slug stamp cwdName pid) = natDigits pid := by
  unfold branchName createSuffix
  have : bp ++ '/' :: slug ++ '-' :: (stamp ++ '-' :: cwdName ++ '-' :: natDigits pid) =
      (bp ++ '/' :: slug ++ '-' :: stamp ++ '-' :: cwdName) ++ '-' :: natDigits pid := by
    simp
  rw [this, afterLastDash_append _ _ (mem_natDigits_ne_dash pid)]

theorem afterLastDash_worktreeName (slug stamp cwdName : List Char)
    (pid : Nat) :
    afterLastDash (worktreeName slug stamp cwdName pid) = natDigits pid := by
  unfold worktreeName createSuffix
  have : slug ++ '-' :: (stamp ++ '-' :: cwdName ++ '-' :: natDigits pid) =
      (slug ++ '-' :: stamp ++ '-' :: cwdName) ++ '-' :: natDigits pid := by
    simp
  rw [this, afterLastDash_append _ _ (mem_natDigits_ne_dash pid)]

/-- C3: two concurrent `create` invocations run in distinct OS processes and
therefore observe distinct `os.getpid()` values; whatever clock readings and
working-directory names the two observe — in particular identical ones — the
derived branch names and worktree paths are distinct, because the decimal
process id is the final dash-separated component of both names. -/
theorem C3_concurrent_create_distinct
    (bp slug stamp1 stamp2 cwd1 cwd2 : List Char) (wtRoot : PyPath)
    (pid1 pid2 : Nat) (hpid : pid1 ≠ pid2) :
    branchName bp slug stamp1 cwd1 pid1 ≠ branchName bp slug stamp2 cwd2 pid2 ∧
    worktreePath wtRoot slug stamp1 cwd1 pid1 ≠
      worktreePath wtRoot slug stamp2 cwd2 pid2 := by
  constructor
  · intro h
    apply hpid
    apply natDigits_injective
    have := congrArg afterLastDash h
    rwa [afterLastDash_branchName, afterLastDash_branchName] at this
  · intro h
    apply hpid
    apply natDigits_injective
    have hsegs := congrArg PyPath.segs h
    simp only [worktreePath] at hsegs
    have hname := List.append_cancel_left hsegs
    have hmk : String.mk (worktreeName slug stamp1 cwd1 pid1) =
        String.mk (worktreeName slug stamp2 cwd2 pid2) := by
      simpa using hname
    have hlist := congrArg String.data hmk
    have := congrArg afterLastDash hlist
    rwa [afterLastDash_worktreeName, afterLastDash_worktreeName] at this

/-- Witness for C3: two processes with pids 100 and 101, identical slug,
timestamp and working-directory name, get distinct names. -/
theorem C3_concurrent_create_distinct_witness :
    branchName "cfst-worker".data "P1".data "20240101-120000".data "repo".data 100 ≠
      branchName "cfst-worker".data "P1".data "20240101-120000".data "repo".data 101 ∧
    worktreePath ⟨true, ["repo", ".codex", "worktrees"]⟩ "P1".data
        "20240101-120000".data "repo".data 100 ≠
      worktreePath ⟨true, ["repo", ".codex", "worktrees"]⟩ "P1".data
        "20240101-120000".data "repo".data 101 :=
  C3_concurrent_create_distinct "cfst-worker".data "P1".data
    "20240101-120000".data "20240101-120000".data "repo".data "repo".data
    ⟨true, ["repo", ".codex", "worktrees"]⟩ 100 101 (by decide)

/- ### C2 / C7: worktree lifecycle (`_create` rollback, `_remove`) -/

/-- Abstract state of the shared repository: the worktree registry (each
existing worktree directory with its checked-out branch, as `git worktree
list` reports) and the set of branches. -/
structure RepoState where
  worktrees : List (PyPath × String)
  branches : List String
deriving DecidableEq, Repr

/-- `git worktree add -b <branch> <wt_path> <base_ref>`: creates the
worktree directory and the new branch. -/
def worktreeAdd (s : RepoState) (wt : PyPath) (branch : String) : RepoState :=
  { worktrees := (wt, branch) :: s.worktrees, branches := branch :: s.branches }

/-- `git worktree remove --force <wt_path>`: deletes the worktree directory
and drops its registry entry. -/
def worktreeRemove (s : RepoState) (wt : PyPath) : RepoState :=
  { s with worktrees := s.worktrees.filter (fun e => e.1 != wt) }

/-- `git branch -D <branch>`. -/
def branchDelete (s : RepoState) (branch : String) : RepoState :=
  { s with branches := s.branches.filter (fun b => b != branch) }

/-- The failures the `try` block of `_create` can hit. -/
inductive StageError where
  | copyPaperFailed
  | copySkillFailed
  | outputEscapes (e : String)
  | mkdirFailed
deriving DecidableEq, Repr

/-- The `try` block of `_create` after `git worktree add` succeeded: copy
the payload tree, copy the policy tree, resolve the output directory under
the worktree via `_resolve_under_root`, and create it.  The copies and the
`mkdir` are external filesystem effects whose success is injected; the
output-directory resolution is the real path check. -/
def stagePayload (wt : PyPath) (outputDir : PyPath)
    (copyPaperOk copySkillOk mkdirOk : Bool) : Except StageError PyPath :=
  if !copyPaperOk then .error .copyPaperFailed
  else if !copySkillOk then .error .copySkillFailed
  else
    match resolve_under_root wt outputDir with
    | .error e => .error (.outputEscapes e)
    | .ok out => if !mkdirOk then .error .mkdirFailed else .ok out

/-- `_create` from the successful `git worktree add` onwards: on any staging
failure, roll back — `git worktree remove --force` the new directory, then
`git branch -D` the new branch — and fail with the payload-staging error. -/
def createAfterWorktreeAdd (s0 : RepoState) (wt : PyPath) (branch : String)
    (outputDir : PyPath) (copyPaperOk copySkillOk mkdirOk : Bool) :
    RepoState × Except String PyPath :=
  let s1 := worktreeAdd s0 wt branch
  match stagePayload wt outputDir copyPaperOk copySkillOk mkdirOk with
  | .ok out => (s1, .ok out)
  | .error _ =>
      (branchDelete (worktreeRemove s1 wt) branch,
       .error "Failed to prepare worktree payload")

/-- C2: when the worktree directory and branch created by `_create` are
fresh (git would have refused to create duplicates), any failure of the
payload copy, the policy copy, the output-directory resolution, or its
creation makes `_create` remove the just-created worktree, delete the
just-created branch, and surface the staging error: the final repository
state equals the state before `git worktree add`. -/
theorem C2_create_rollback (s0 : RepoState) (wt : PyPath) (branch : String)
    (outputDir : PyPath) (ok1 ok2 ok3 : Bool)
    (hwt : ∀ e ∈ s0.worktrees, e.1 ≠ wt) (hbr : branch ∉ s0.branches)
    (hfail : ∀ p, stagePayload wt outputDir ok1 ok2 ok3 ≠ .ok p) :
    createAfterWorktreeAdd s0 wt branch outputDir ok1 ok2 ok3 =
      (s0, .error "Failed to prepare worktree payload") := by
  unfold createAfterWorktreeAdd
  match hstage : stagePayload wt outputDir ok1 ok2 ok3 with
  | .ok p => exact absurd hstage (hfail p)
  | .error e =>
    simp only []
    congr 1
    unfold worktreeAdd worktreeRemove branchDelete
    cases s0 with
    | mk wts brs =>
      simp only [RepoState.mk.injEq]
      constructor
      · rw [List.filter_cons]
        simp only [bne_self_eq_false]
        simp only [Bool.false_eq_true, if_false]
        exact List.filter_eq_self.mpr fun e he => by
          simpa using hwt e he
      · rw [List.filter_cons]
        simp only [bne_self_eq_false]
        simp only [Bool.false_eq_true, if_false]
        exact List.filter_eq_self.mpr fun b hb => by
          simp
          intro hbe
          exact hbr (hbe ▸ hb)

/-- Witness for C2: a failing payload copy into a fresh worktree `/repo/w`
with fresh branch `b` rolls the state back to the initial one. -/
theorem C2_create_rollback_witness :
    createAfterWorktreeAdd ⟨[], ["main"]⟩ ⟨true, ["repo", "w"]⟩ "b"
        ⟨false, ["out"]⟩ false true true =
      (⟨[], ["main"]⟩, .error "Failed to prepare worktree payload") :=
  C2_create_rollback ⟨[], ["main"]⟩ ⟨true, ["repo", "w"]⟩ "b"
    ⟨false, ["out"]⟩ false true true (by simp) (by simp)
    (fun p h => by simp [stagePayload] at h)

/-- The result record printed by `_remove`. -/
structure RemoveResult where
  branch : Option String
  deletedBranch : Bool
deriving DecidableEq, Repr

/-- `_branch_for_worktree`: look the branch up in the worktree registry. -/
def branch_for_worktree (s : RepoState) (wt : PyPath) : Option String :=
  (s.worktrees.find? (fun e => e.1 == wt)).map (·.2)

/-- `_remove(args)` after repo-root discovery: fail when the worktree path
does not exist; otherwise take the branch from the argument or the
registry, forcibly remove the worktree (subprocess success injected as
`rmOk`), and if requested delete the branch (success injected as `delOk`;
its failure only yields `deleted_branch = false`). -/
def remove_worktree (s : RepoState) (wt : PyPath) (branchArg : Option String)
    (deleteBranch rmOk delOk : Bool) :
    RepoState × Except String RemoveResult :=
  if !(s.worktrees.any (fun e => e.1 == wt)) then
    (s, .error "Worktree path does not exist")
  else if !rmOk then (s, .error "git worktree remove failed")
  else
    match branchArg.or (branch_for_worktree s wt), deleteBranch with
    | some b, true =>
      if delOk then (branchDelete (worktreeRemove s wt) b, .ok ⟨some b, true⟩)
      else (worktreeRemove s wt, .ok ⟨some b, false⟩)
    | none, true => (worktreeRemove s wt, .ok ⟨none, false⟩)
    | b, false => (worktreeRemove s wt, .ok ⟨b, false⟩)

theorem remove_ok_no_entry (s : RepoState) (wt : PyPath)
    (ba : Option String) (db rmOk delOk : Bool) (s' : RepoState)
    (r : RemoveResult)
    (h : remove_worktree s wt ba db rmOk delOk = (s', .ok r)) :
    ∀ e ∈ s'.worktrees, e.1 ≠ wt := by
  unfold remove_worktree at h
  split at h
  · simp at h
  · split at h
    · simp at h
    · have hfilter : ∀ e ∈ (worktreeRemove s wt).worktrees, e.1 ≠ wt := by
        intro e he
        have := List.of_mem_filter he
        simpa using this
      split at h
      · split at h <;>
        · injection h with h1 h2
          subst h1
          intro e he
          exact hfilter e (by simpa [branchDelete] using he)
      · injection h with h1 h2
        subst h1
        exact hfilter
      · injection h with h1 h2
        subst h1
        exact hfilter

/-- C7: `_remove` fails with the worktree-not-found error whenever the
given worktree path does not exist, and in particular a second `remove` of
a path the first call already removed fails cleanly with that error while
leaving the state unchanged. -/
theorem C7_remove_twice_not_found (s : RepoState) (wt : PyPath)
    (ba ba' : Option String) (db db' rmOk rmOk' delOk delOk' : Bool) :
    ((∀ e ∈ s.worktrees, e.1 ≠ wt) →
      remove_worktree s wt ba db rmOk delOk =
        (s, .error "Worktree path does not exist")) ∧
    (∀ s' r, remove_worktree s wt ba db rmOk delOk = (s', .ok r) →
      remove_worktree s' wt ba' db' rmOk' delOk' =
        (s', .error "Worktree path does not exist")) := by
  constructor
  · intro hmiss
    unfold remove_worktree
    have : s.worktrees.any (fun e => e.1 == wt) = false := by
      simp only [List.any_eq_false]
      intro e he
      simpa using hmiss e he
    simp [this]
  · intro s' r h
    have hmiss := remove_ok_no_entry s wt ba db rmOk delOk s' r h
    unfold remove_worktree
    have : s'.worktrees.any (fun e => e.1 == wt) = false := by
      simp only [List.any_eq_false]
      intro e he
      simpa using hmiss e he
    simp [this]

/-- Witness for C7: removing `/repo/w` from a one-worktree state succeeds,
and removing it again from the resulting state fails with the
worktree-not-found error. -/
theorem C7_remove_twice_not_found_witness :
    remove_worktree ⟨[], ["main"]⟩ ⟨true, ["repo", "w"]⟩ none true true true =
      (⟨[], ["main"]⟩, .error "Worktree path does not exist") ∧
    remove_worktree
        (worktreeRemove ⟨[(⟨true, ["repo", "w"]⟩, "b")], ["main", "b"]⟩
          ⟨true, ["repo", "w"]⟩)
        ⟨true, ["repo", "w"]⟩ none true true true =
      (worktreeRemove ⟨[(⟨true, ["repo", "w"]⟩, "b")], ["main", "b"]⟩
          ⟨true, ["repo", "w"]⟩,
        .error "Worktree path does not exist") := by
  constructor
  · exact (C7_remove_twice_not_found ⟨[], ["main"]⟩ ⟨true, ["repo", "w"]⟩
      none none true true true true true true).1 (by simp)
  · exact (C7_remove_twice_not_found
      ⟨[(⟨true, ["repo", "w"]⟩, "b")], ["main", "b"]⟩ ⟨true, ["repo", "w"]⟩
      none none false true true true true true).2 _ ⟨some "b", false⟩ (by rfl)

/- ### C4: `_build_sandbox_paths` -/

/-- Every success of `_resolve_under_root` is the canonicalized resolution
and has the root's segments as a prefix. -/
theorem resolve_under_root_ok (root raw p : PyPath)
    (h : resolve_under_root root raw = .ok p) :
    p = resolveJoin root raw ∧ root.segs <+: p.segs := by
  unfold resolve_under_root at h
  split at h
  · cases h
  · split at h
    · rename_i hpre
      cases h
      exact ⟨rfl, List.isPrefixOf_iff_prefix.mp hpre⟩
    · cases h

/-- The sandbox allow-list record computed by `_build_sandbox_paths`. -/
structure SandboxManifest where
  allowedRw : List PyPath
  allowedRo : List PyPath
  entryCwd : PyPath
deriving DecidableEq, Repr

/-- `p / name`: append one path component (pathlib `/` on a plain name). -/
def childPath (p : PyPath) (name : Seg) : PyPath :=
  ⟨p.absolute, p.segs ++ [name]⟩

/-- `_build_sandbox_paths(wt_path, paper_rel, skill_rel, output_dir)` from
`git_worktree_isolation.py`: resolve the three locations inside the
worktree; read-write = paper and output, read-only = the skill bundle's
`SKILL.md`, `references` and `scripts`, entry cwd = the paper location. -/
def build_sandbox_paths (wt : PyPath) (paperRel skillRel outputDir : PyPath) :
    SandboxManifest :=
  let paperPath := resolveJoin wt paperRel
  let outputPath := resolveJoin wt outputDir
  let skillRoot := resolveJoin wt skillRel
  { allowedRw := [paperPath, outputPath]
    allowedRo := [childPath skillRoot "SKILL.md",
      childPath skillRoot "references", childPath skillRoot "scripts"]
    entryCwd := paperPath }

/-- C4: for the inputs `_create` hands to `_build_sandbox_paths` — a
canonical worktree root, repo-relative paper and skill locations already
canonicalized by `_resolve_repo_relative` (so `.`/`..`-free), and an output
directory that passed `_resolve_under_root` — the manifest's read-write set
is exactly {paper location inside the worktree, output location inside the
worktree}, its read-only set exactly {skill `SKILL.md`, skill `references`,
skill `scripts`} inside the worktree, its entry cwd is the paper location,
and every one of these paths is an absolute descendant of the worktree. -/
theorem C4_build_sandbox_paths_manifest (wt paperRel skillRel outputDir
    outputAbs : PyPath) (hwt : canonicalRoot wt)
    (hpaper : paperRel.absolute = false ∧ ∀ s ∈ paperRel.segs, cleanSeg s)
    (hskill : skillRel.absolute = false ∧ ∀ s ∈ skillRel.segs, cleanSeg s)
    (hout : resolve_under_root wt outputDir = .ok outputAbs) :
    (build_sandbox_paths wt paperRel skillRel outputDir).allowedRw =
      [⟨true, wt.segs ++ paperRel.segs⟩, outputAbs] ∧
    (build_sandbox_paths wt paperRel skillRel outputDir).allowedRo =
      [⟨true, wt.segs ++ skillRel.segs ++ ["SKILL.md"]⟩,
       ⟨true, wt.segs ++ skillRel.segs ++ ["references"]⟩,
       ⟨true, wt.segs ++ skillRel.segs ++ ["scripts"]⟩] ∧
    (build_sandbox_paths wt paperRel skillRel outputDir).entryCwd =
      ⟨true, wt.segs ++ paperRel.segs⟩ ∧
    (∀ p ∈ (build_sandbox_paths wt paperRel skillRel outputDir).allowedRw ++
        (build_sandbox_paths wt paperRel skillRel outputDir).allowedRo,
      isUnder p wt) ∧
    isUnder (build_sandbox_paths wt paperRel skillRel outputDir).entryCwd wt := by
  obtain ⟨houtEq, houtPre⟩ := resolve_under_root_ok wt outputDir outputAbs hout
  have hp := resolveJoin_clean wt paperRel hwt hpaper.2
  have hs := resolveJoin_clean wt skillRel hwt hskill.2
  unfold build_sandbox_paths
  simp only [hp, hs, ← houtEq, childPath]
  refine ⟨trivial, ?_, trivial, ?_, ?_⟩
  · simp [List.append_assoc]
  · intro p hmem
    simp at hmem
    rcases hmem with h | h | h | h | h <;> subst h
    · exact ⟨rfl, paperRel.segs, rfl⟩
    · exact ⟨by rw [houtEq]; rfl, houtPre⟩
    · exact ⟨rfl, skillRel.segs ++ ["SKILL.md"], by simp⟩
    · exact ⟨rfl, skillRel.segs ++ ["references"], by simp⟩
    · exact ⟨rfl, skillRel.segs ++ ["scripts"], by simp⟩
  · exact ⟨rfl, paperRel.segs, rfl⟩

/-- Witness for C4 at the spec's scenario shapes: worktree `/wt`, paper
`papers/P1`, skill `.codex/skills/cfst-paper-extractor`, output `tmp/P1`. -/
theorem C4_build_sandbox_paths_manifest_witness :
    (build_sandbox_paths ⟨true, ["wt"]⟩ ⟨false, ["papers", "P1"]⟩
        ⟨false, [".codex", "skills", "cfst-paper-extractor"]⟩
        ⟨false, ["tmp", "P1"]⟩).allowedRw =
      [⟨true, ["wt", "papers", "P1"]⟩, ⟨true, ["wt", "tmp", "P1"]⟩] ∧
    (build_sandbox_paths ⟨true, ["wt"]⟩ ⟨false, ["papers", "P1"]⟩
        ⟨false, [".codex", "skills", "cfst-paper-extractor"]⟩
        ⟨false, ["tmp", "P1"]⟩).allowedRo =
      [⟨true, ["wt", ".codex", "skills", "cfst-paper-extractor", "SKILL.md"]⟩,
       ⟨true, ["wt", ".codex", "skills", "cfst-paper-extractor", "references"]⟩,
       ⟨true, ["wt", ".codex", "skills", "cfst-paper-extractor", "scripts"]⟩] ∧
    (build_sandbox_paths ⟨true, ["wt"]⟩ ⟨false, ["papers", "P1"]⟩
        ⟨false, [".codex", "skills", "cfst-paper-extractor"]⟩
        ⟨false, ["tmp", "P1"]⟩).entryCwd = ⟨true, ["wt", "papers", "P1"]⟩ := by
  have h := C4_build_sandbox_paths_manifest ⟨true, ["wt"]⟩
    ⟨false, ["papers", "P1"]⟩
    ⟨false, [".codex", "skills", "cfst-paper-extractor"]⟩
    ⟨false, ["tmp", "P1"]⟩ ⟨true, ["wt", "tmp", "P1"]⟩
    ⟨rfl, by intro s hs; simp at hs; simp [hs, cleanSeg]⟩
    ⟨rfl, by intro s hs; simp at hs; rcases hs with h | h <;> simp [h, cleanSeg]⟩
    ⟨rfl, by
      intro s hs
      simp at hs
      rcases hs with h | h | h <;> simp [h, cleanSeg]⟩
    (by rfl)
  exact ⟨h.1, by rw [h.2.1]; simp, h.2.2.1⟩

/- ### C5 / C6: `worker_sandbox.py` `main` -/

/-- Abstract host filesystem: the existing directories and files. -/
structure FS where
  dirs : List PyPath
  files : List PyPath
deriving DecidableEq, Repr

/-- The failure modes of `worker_sandbox.main`, each carrying the offending
path its `[FAIL]` message names. -/
inductive SandboxError where
  | bwrapMissing
  | worktreeMissing (p : PyPath)
  | worktreeNotDir (p : PyPath)
  | badRelPath (label : String) (raw : PyPath)
  | paperDirMissing (p : PyPath)
  | skillDirMissing (p : PyPath)
  | skillFileMissing (p : PyPath)
  | referencesMissing (p : PyPath)
  | scriptsMissing (p : PyPath)
  | emptyCommand
deriving DecidableEq, Repr

/-- `_resolve_under(base_dir, raw_rel, label)` from `worker_sandbox.py`:
reject absolute inputs, resolve against the base, require containment, and
also return the base-relative segment list (`as_posix` of `relative_to`). -/
def resolve_under (base : PyPath) (raw : PyPath) :
    Except String (PyPath × List Seg) :=
  if raw.absolute then .error "must be a relative path under worktree"
  else if base.segs.isPrefixOf (resolveJoin base raw).segs then
    .ok (resolveJoin base raw, (resolveJoin base raw).segs.drop base.segs.length)
  else .error "escapes worktree"

/-- `output_abs.mkdir(parents=True, exist_ok=True)`: add the directory when
absent (intermediate directories are not tracked at this abstraction). -/
def mkdirAt (fs : FS) (p : PyPath) : FS :=
  { fs with dirs := if p ∈ fs.dirs then fs.dirs else p :: fs.dirs }

/-- The bubblewrap invocation `main` constructs: the read-write and
read-only bind mounts (host path, destination inside `/workspace`), the
working-directory mode, and the worker command.  No other host path beyond
the fixed read-only system directories is bound. -/
structure SandboxPlan where
  rwBinds : List (PyPath × List Seg)
  roBinds : List (PyPath × List Seg)
  cwdWorkspace : Bool
  command : List String
deriving DecidableEq, Repr

/-- The path arithmetic of `_resolve_base_path(cwd, raw_path, label)`:
resolve an absolute input as-is, a relative one against the current
directory (the existence check follows in `worker_main`). -/
def resolve_base (cwd : PyPath) (raw : PyPath) : PyPath :=
  if raw.absolute then ⟨true, normAux [] raw.segs⟩ else resolveJoin cwd raw

/-- `worker_sandbox.main` from the bwrap probe to the `subprocess.run`:
`exec` stands for running the constructed bubblewrap command and yields the
sandboxed worker's exit code, which bwrap propagates. -/
def worker_main (fs : FS) (bwrapAvailable : Bool) (cwd : PyPath)
    (worktreeArg paperArg skillArg outputArg : PyPath)
    (cwdModeWorkspace : Bool) (workerCmd : List String)
    (exec : SandboxPlan → Int) : Except SandboxError (FS × SandboxPlan × Int) :=
  if !bwrapAvailable then .error .bwrapMissing
  else
    let wtAbs : PyPath := resolve_base cwd worktreeArg
    if wtAbs ∉ fs.dirs ∧ wtAbs ∉ fs.files then .error (.worktreeMissing wtAbs)
    else if wtAbs ∉ fs.dirs then .error (.worktreeNotDir wtAbs)
    else
      match resolve_under wtAbs paperArg with
      | .error _ => .error (.badRelPath "Paper dir" paperArg)
      | .ok (paperAbs, paperRel) =>
        match resolve_under wtAbs skillArg with
        | .error _ => .error (.badRelPath "Skill dir" skillArg)
        | .ok (skillAbs, skillRel) =>
          match resolve_under wtAbs outputArg with
          | .error _ => .error (.badRelPath "Output dir" outputArg)
          | .ok (outputAbs, outputRel) =>
            if paperAbs ∉ fs.dirs then .error (.paperDirMissing paperAbs)
            else if skillAbs ∉ fs.dirs then .error (.skillDirMissing skillAbs)
            else if childPath skillAbs "SKILL.md" ∉ fs.files then
              .error (.skillFileMissing (childPath skillAbs "SKILL.md"))
            else if childPath skillAbs "references" ∉ fs.dirs then
              .error (.referencesMissing (childPath skillAbs "references"))
            else if childPath skillAbs "scripts" ∉ fs.dirs then
              .error (.scriptsMissing (childPath skillAbs "scripts"))
            else
              let fs1 := mkdirAt fs outputAbs
              let cmd :=
                if workerCmd.head? = some "--" then workerCmd.tail
                else workerCmd
              if cmd.isEmpty then .error .emptyCommand
              else
                let plan : SandboxPlan :=
                  { rwBinds := [(paperAbs, paperRel), (outputAbs, outputRel)]
                    roBinds :=
                      [(childPath skillAbs "SKILL.md", skillRel ++ ["SKILL.md"]),
                       (childPath skillAbs "references", skillRel ++ ["references"]),
                       (childPath skillAbs "scripts", skillRel ++ ["scripts"])]
                    cwdWorkspace := cwdModeWorkspace
                    command := cmd }
                .ok (fs1, plan, exec plan)

theorem normAux_canonical (p : PyPath) (h : canonicalRoot p) :
    normAux [] p.segs = p.segs := by
  rw [normAux_clean [] p.segs h.2]
  simp

theorem resolve_base_canonical (cwd wt : PyPath) (h : canonicalRoot wt) :
    resolve_base cwd wt = wt := by
  unfold resolve_base
  rw [if_pos h.1, normAux_canonical wt h, ← h.1]

/-- C5: with bubblewrap available and a canonical, existing worktree whose
paper, skill and output arguments all resolve under it, `worker_sandbox
.main` refuses to run the worker whenever a required manifest path is
missing — checking the paper directory, the skill directory, `SKILL.md`,
`references` and `scripts` in that order and failing with the error naming
the first missing path, never reaching the execution step — and when all
are present it creates the output directory if absent before running. -/
theorem C5_run_refuses_missing_paths (fs : FS) (cwd : PyPath)
    (wt paperArg skillArg outputArg : PyPath) (cwdMode : Bool)
    (workerCmd : List String) (exec : SandboxPlan → Int)
    (paperAbs skillAbs outputAbs : PyPath)
    (paperRel skillRel outputRel : List Seg)
    (hwt : canonicalRoot wt) (hwtdir : wt ∈ fs.dirs)
    (hp : resolve_under wt paperArg = .ok (paperAbs, paperRel))
    (hs : resolve_under wt skillArg = .ok (skillAbs, skillRel))
    (ho : resolve_under wt outputArg = .ok (outputAbs, outputRel)) :
    (paperAbs ∉ fs.dirs →
      worker_main fs true cwd wt paperArg skillArg outputArg cwdMode
        workerCmd exec = .error (.paperDirMissing paperAbs)) ∧
    (paperAbs ∈ fs.dirs → skillAbs ∉ fs.dirs →
      worker_main fs true cwd wt paperArg skillArg outputArg cwdMode
        workerCmd exec = .error (.skillDirMissing skillAbs)) ∧
    (paperAbs ∈ fs.dirs → skillAbs ∈ fs.dirs →
      childPath skillAbs "SKILL.md" ∉ fs.files →
      worker_main fs true cwd wt paperArg skillArg outputArg cwdMode
        workerCmd exec =
        .error (.skillFileMissing (childPath skillAbs "SKILL.md"))) ∧
    (paperAbs ∈ fs.dirs → skillAbs ∈ fs.dirs →
      childPath skillAbs "SKILL.md" ∈ fs.files →
      childPath skillAbs "references" ∉ fs.dirs →
      worker_main fs true cwd wt paperArg skillArg outputArg cwdMode
        workerCmd exec =
        .error (.referencesMissing (childPath skillAbs "references"))) ∧
    (paperAbs ∈ fs.dirs → skillAbs ∈ fs.dirs →
      childPath skillAbs "SKILL.md" ∈ fs.files →
      childPath skillAbs "references" ∈ fs.dirs →
      childPath skillAbs "scripts" ∉ fs.dirs →
      worker_main fs true cwd wt paperArg skillArg outputArg cwdMode
        workerCmd exec =
        .error (.scriptsMissing (childPath skillAbs "scripts"))) ∧
    (∀ res, worker_main fs true cwd wt paperArg skillArg outputArg cwdMode
        workerCmd exec = .ok res →
      res.1 = mkdirAt fs outputAbs ∧ outputAbs ∈ res.1.dirs) := by
  have hbase := resolve_base_canonical cwd wt hwt
  have hexists : ¬(wt ∉ fs.dirs ∧ wt ∉ fs.files) := fun h => h.1 hwtdir
  refine ⟨?_, ?_, ?_, ?_, ?_, ?_⟩
  · intro h1
    simp [worker_main, hbase, hexists, hwtdir, hp, hs, ho, h1]
  · intro h1 h2
    simp [worker_main, hbase, hexists, hwtdir, hp, hs, ho, h1, h2]
  · intro h1 h2 h3
    simp [worker_main, hbase, hexists, hwtdir, hp, hs, ho, h1, h2, h3]
  · intro h1 h2 h3 h4
    simp [worker_main, hbase, hexists, hwtdir, hp, hs, ho, h1, h2, h3, h4]
  · intro h1 h2 h3 h4 h5
    simp [worker_main, hbase, hexists, hwtdir, hp, hs, ho, h1, h2, h3, h4, h5]
  · intro res hres
    have c2 : ¬(wt ∉ fs.dirs) := fun h => h hwtdir
    simp only [worker_main, hbase, hp, hs, ho] at hres
    rw [if_neg hexists, if_neg c2] at hres
    split at hres
    · simp at hres
    · split at hres
      · simp at hres
      · split at hres
        · simp at hres
        · split at hres
          · simp at hres
          · split at hres
            · simp at hres
            · split at hres
              · simp at hres
              · split at hres <;>
                · split at hres
                  · simp at hres
                  · simp only [Except.ok.injEq] at hres
                    subst hres
                    refine ⟨rfl, ?_⟩
                    unfold mkdirAt
                    by_cases hmem : outputAbs ∈ fs.dirs <;> simp [hmem]

/-- Witness for C5: a missing paper directory in a one-directory filesystem
makes `main` fail naming that paper path. -/
theorem C5_run_refuses_missing_paths_witness :
    worker_main ⟨[⟨true, ["wt"]⟩], []⟩ true ⟨true, []⟩ ⟨true, ["wt"]⟩
        ⟨false, ["papers", "P1"]⟩ ⟨false, ["skill"]⟩ ⟨false, ["out"]⟩
        true ["--", "false"] (fun _ => 0) =
      .error (.paperDirMissing ⟨true, ["wt", "papers", "P1"]⟩) :=
  (C5_run_refuses_missing_paths ⟨[⟨true, ["wt"]⟩], []⟩ ⟨true, []⟩
    ⟨true, ["wt"]⟩ ⟨false, ["papers", "P1"]⟩ ⟨false, ["skill"]⟩
    ⟨false, ["out"]⟩ true ["--", "false"] (fun _ => 0)
    ⟨true, ["wt", "papers", "P1"]⟩ ⟨true, ["wt", "skill"]⟩
    ⟨true, ["wt", "out"]⟩ ["papers", "P1"] ["skill"] ["out"]
    ⟨rfl, by intro s hs; simp at hs; simp [hs, cleanSeg]⟩ (by simp)
    (by rfl) (by rfl) (by rfl)).1 (by simp)

/-- C6: on the success path, `worker_sandbox.main` runs the constructed
bubblewrap command synchronously and returns the sandboxed worker's exit
code unchanged — whatever `exec` yields, including a nonzero exit such as
`1` from `["false"]`, is the returned value, never converted to an error. -/
theorem C6_run_returns_exit_code (fs : FS) (cwd : PyPath)
    (wt paperArg skillArg outputArg : PyPath) (cwdMode : Bool)
    (workerCmd : List String) (exec : SandboxPlan → Int)
    (paperAbs skillAbs outputAbs : PyPath)
    (paperRel skillRel outputRel : List Seg)
    (hwt : canonicalRoot wt) (hwtdir : wt ∈ fs.dirs)
    (hp : resolve_under wt paperArg = .ok (paperAbs, paperRel))
    (hs : resolve_under wt skillArg = .ok (skillAbs, skillRel))
    (ho : resolve_under wt outputArg = .ok (outputAbs, outputRel))
    (h1 : paperAbs ∈ fs.dirs) (h2 : skillAbs ∈ fs.dirs)
    (h3 : childPath skillAbs "SKILL.md" ∈ fs.files)
    (h4 : childPath skillAbs "references" ∈ fs.dirs)
    (h5 : childPath skillAbs "scripts" ∈ fs.dirs)
    (cmd : List String)
    (hcmd : (if workerCmd.head? = some "--" then workerCmd.tail
      else workerCmd) = cmd)
    (hne : cmd ≠ []) :
    worker_main fs true cwd wt paperArg skillArg outputArg cwdMode
        workerCmd exec =
      .ok (mkdirAt fs outputAbs,
        { rwBinds := [(paperAbs, paperRel), (outputAbs, outputRel)]
          roBinds :=
            [(childPath skillAbs "SKILL.md", skillRel ++ ["SKILL.md"]),
             (childPath skillAbs "references", skillRel ++ ["references"]),
             (childPath skillAbs "scripts", skillRel ++ ["scripts"])]
          cwdWorkspace := cwdMode
          command := cmd },
        exec
          { rwBinds := [(paperAbs, paperRel), (outputAbs, outputRel)]
            roBinds :=
              [(childPath skillAbs "SKILL.md", skillRel ++ ["SKILL.md"]),
               (childPath skillAbs "references", skillRel ++ ["references"]),
               (childPath skillAbs "scripts", skillRel ++ ["scripts"])]
            cwdWorkspace := cwdMode
            command := cmd }) := by
  have hbase := resolve_base_canonical cwd wt hwt
  have hexists : ¬(wt ∉ fs.dirs ∧ wt ∉ fs.files) := fun h => h.1 hwtdir
  have c2 : ¬(wt ∉ fs.dirs) := fun h => h hwtdir
  have c3 : ¬(paperAbs ∉ fs.dirs) := fun h => h h1
  have c4 : ¬(skillAbs ∉ fs.dirs) := fun h => h h2
  have c5 : ¬(childPath skillAbs "SKILL.md" ∉ fs.files) := fun h => h h3
  have c6 : ¬(childPath skillAbs "references" ∉ fs.dirs) := fun h => h h4
  have c7 : ¬(childPath skillAbs "scripts" ∉ fs.dirs) := fun h => h h5
  have c8 : ¬((if workerCmd.head? = some "--" then workerCmd.tail
      else workerCmd).isEmpty = true) := by
    rw [hcmd]
    simp [hne]
  simp only [worker_main, hbase, hp, hs, ho]
  rw [if_neg hexists, if_neg c2, if_neg c3, if_neg c4, if_neg c5, if_neg c6,
    if_neg c7, if_neg c8, hcmd]
  simp

/-- Witness for C6: running the always-failing command `["false"]`
(modeled by an executor returning exit code 1) yields exit code 1. -/
theorem C6_run_returns_exit_code_witness :
    worker_main
        ⟨[⟨true, ["wt"]⟩, ⟨true, ["wt", "papers", "P1"]⟩,
          ⟨true, ["wt", "skill"]⟩, ⟨true, ["wt", "skill", "references"]⟩,
          ⟨true, ["wt", "skill", "scripts"]⟩],
         [⟨true, ["wt", "skill", "SKILL.md"]⟩]⟩
        true ⟨true, []⟩ ⟨true, ["wt"]⟩ ⟨false, ["papers", "P1"]⟩
        ⟨false, ["skill"]⟩ ⟨false, ["out"]⟩ true ["--", "false"]
        (fun _ => 1) =
      .ok (mkdirAt
          ⟨[⟨true, ["wt"]⟩, ⟨true, ["wt", "papers", "P1"]⟩,
            ⟨true, ["wt", "skill"]⟩, ⟨true, ["wt", "skill", "references"]⟩,
            ⟨true, ["wt", "skill", "scripts"]⟩],
           [⟨true, ["wt", "skill", "SKILL.md"]⟩]⟩
          ⟨true, ["wt", "out"]⟩,
        { rwBinds := [(⟨true, ["wt", "papers", "P1"]⟩, ["papers", "P1"]),
            (⟨true, ["wt", "out"]⟩, ["out"])]
          roBinds :=
            [(⟨true, ["wt", "skill", "SKILL.md"]⟩, ["skill", "SKILL.md"]),
             (⟨true, ["wt", "skill", "references"]⟩, ["skill", "references"]),
             (⟨true, ["wt", "skill", "scripts"]⟩, ["skill", "scripts"])]
          cwdWorkspace := true
          command := ["false"] },
        1) :=
  C6_run_returns_exit_code
    ⟨[⟨true, ["wt"]⟩, ⟨true, ["wt", "papers", "P1"]⟩,
      ⟨true, ["wt", "skill"]⟩, ⟨true, ["wt", "skill", "references"]⟩,
      ⟨true, ["wt", "skill", "scripts"]⟩],
     [⟨true, ["wt", "skill", "SKILL.md"]⟩]⟩
    ⟨true, []⟩ ⟨true, ["wt"]⟩ ⟨false, ["papers", "P1"]⟩ ⟨false, ["skill"]⟩
    ⟨false, ["out"]⟩ true ["--", "false"] (fun _ => 1)
    ⟨true, ["wt", "papers", "P1"]⟩ ⟨true, ["wt", "skill"]⟩
    ⟨true, ["wt", "out"]⟩ ["papers", "P1"] ["skill"] ["out"]
    ⟨rfl, by intro s hs; simp at hs; simp [hs, cleanSeg]⟩ (by simp)
    (by rfl) (by rfl) (by rfl) (by simp) (by simp) (by simp [childPath])
    (by simp [childPath]) (by simp [childPath]) ["false"] (by rfl) (by simp)

/- ### C9: `checkpoint_output_commits.py` output-only staging check -/

/-- Python `path.replace("\\", "/")`. -/
def toSlash (l : List Char) : List Char :=
  l.map (fun c => if c = '\\' then '/' else c)

/-- The per-path test inside `_only_output_files`: normalize backslashes
and require the path to equal the cleaned output directory or to start
with it plus `/`. -/
def pathUnderOutput (outputDir p : List Char) : Bool :=
  toSlash p == toSlash (pyStrip (fun c => c == '/') outputDir) ||
    (toSlash (pyStrip (fun c => c == '/') outputDir) ++ ['/']).isPrefixOf
      (toSlash p)

/-- `_only_output_files(paths, output_dir)` from
`checkpoint_output_commits.py`: `clean = output_dir.strip("/")
.replace("\\", "/")`; a path is bad unless its normalization equals
`clean` or starts with `clean + "/"`; returns (no bad paths, bad paths). -/
def only_output_files (paths : List (List Char)) (outputDir : List Char) :
    Bool × List (List Char) :=
  let bad := paths.filter (fun p => !pathUnderOutput outputDir p)
  (bad.isEmpty, bad)

/-- Abstract repository for the checkpoint helper: the staging area as
`git diff --cached --name-only` reports it after `git add -- output_dir`,
and the commit history (messages, newest first). -/
structure GitRepo where
  staged : List (List Char)
  commits : List (List Char)
deriving DecidableEq, Repr

/-- What the commit block reports on success. -/
inductive CommitOutcome where
  | skipped
  | committed (message : List Char)
deriving DecidableEq, Repr

/-- The commit block of `checkpoint_output_commits.main` when a checkpoint
commit is due, after `git add -- output_dir`: skip when nothing is staged;
fail loudly (before any `git commit`) with the offending paths when the
staged set contains non-output files; otherwise create the commit. -/
def checkpoint_commit (repo : GitRepo) (outputDir : List Char)
    (message : List Char) :
    GitRepo × Except (List (List Char)) CommitOutcome :=
  if repo.staged.isEmpty then (repo, .ok .skipped)
  else if (only_output_files repo.staged outputDir).1 then
    ({ repo with commits := message :: repo.commits }, .ok (.committed message))
  else (repo, .error (only_output_files repo.staged outputDir).2)

/-- C9: when a checkpoint commit is due, the helper commits only if every
staged path lies under the output directory; if any staged path is outside
it, the helper fails before committing, the commit history (and the whole
repository state) is unchanged, and the reported bad paths are exactly the
staged non-output paths; when all staged paths are under the output
directory, exactly the checkpoint commit is appended. -/
theorem C9_checkpoint_commit_output_only (repo : GitRepo)
    (outputDir message : List Char) :
    ((∃ p ∈ repo.staged, pathUnderOutput outputDir p = false) →
      checkpoint_commit repo outputDir message =
        (repo, .error
          (repo.staged.filter (fun p => !pathUnderOutput outputDir p)))) ∧
    ((∀ p ∈ repo.staged, pathUnderOutput outputDir p = true) →
      repo.staged ≠ [] →
      checkpoint_commit repo outputDir message =
        ({ repo with commits := message :: repo.commits },
          .ok (.committed message))) ∧
    (repo.staged = [] →
      checkpoint_commit repo outputDir message = (repo, .ok .skipped)) := by
  refine ⟨?_, ?_, ?_⟩
  · rintro ⟨p, hp, hbad⟩
    have hne : repo.staged.isEmpty = false := by
      cases hst : repo.staged with
      | nil => rw [hst] at hp; cases hp
      | cons a l => simp
    have hcheck : (only_output_files repo.staged outputDir).1 = false := by
      unfold only_output_files
      simp only [List.isEmpty_eq_false, ne_eq, List.filter_eq_nil_iff]
      intro hall
      exact hall p hp (by simp [hbad])
    unfold checkpoint_commit
    rw [hne, hcheck]
    simp [only_output_files]
  · intro hall hne
    have hisEmpty : repo.staged.isEmpty = false := by
      simpa [List.isEmpty_iff] using hne
    have hcheck : (only_output_files repo.staged outputDir).1 = true := by
      unfold only_output_files
      simp only [List.isEmpty_iff, List.filter_eq_nil_iff]
      intro p hp
      simp [hall p hp]
    unfold checkpoint_commit
    rw [hisEmpty, hcheck]
    simp
  · intro hempty
    unfold checkpoint_commit
    simp [hempty]

/-- Witness for C9: staging `["tmp/out/a.json", "secrets.txt"]` against
output directory `tmp/out` fails naming `secrets.txt` and leaves the
history unchanged; staging only `tmp/out/a.json` commits. -/
theorem C9_checkpoint_commit_output_only_witness :
    checkpoint_commit ⟨["tmp/out/a.json".data, "secrets.txt".data], []⟩
        "tmp/out".data "cfst-output: processed 10 papers".data =
      (⟨["tmp/out/a.json".data, "secrets.txt".data], []⟩,
        .error ["secrets.txt".data]) ∧
    checkpoint_commit ⟨["tmp/out/a.json".data], []⟩ "tmp/out".data
        "cfst-output: processed 10 papers".data =
      (⟨["tmp/out/a.json".data],
        ["cfst-output: processed 10 papers".data]⟩,
        .ok (.committed "cfst-output: processed 10 papers".data)) := by
  constructor
  · have h := (C9_checkpoint_commit_output_only
      ⟨["tmp/out/a.json".data, "secrets.txt".data], []⟩ "tmp/out".data
      "cfst-output: processed 10 papers".data).1
      ⟨"secrets.txt".data, by simp, by decide⟩
    rw [h]
    simp
    decide
  · exact (C9_checkpoint_commit_output_only ⟨["tmp/out/a.json".data], []⟩
      "tmp/out".data "cfst-output: processed 10 papers".data).2.1
      (by intro p hp; simp at hp; subst hp; decide) (by simp)

/- ### C10: `safe_calc.py` `_eval_node` -/

/-- The constant kinds an `ast.Constant` node can carry.  Numeric values
are modeled as exact rationals (the claim concerns which node forms are
evaluated, not float rounding); Python's `bool` passes the evaluator's
`isinstance(value, (int, float))` check because it subclasses `int`. -/
inductive PyConst where
  | int (n : Int)
  | float (q : ℚ)
  | bool (b : Bool)
  | str (s : String)
  | noneConst
  | complexConst
  | bytes
deriving DecidableEq, Repr

/-- `ast.BinOp` operator kinds. -/
inductive BinOpKind where
  | add | sub | mult | div | pow | mod | floorDiv
  | lshift | rshift | bitOr | bitXor | bitAnd | matMult
deriving DecidableEq, Repr

/-- `ast.UnaryOp` operator kinds. -/
inductive UnaryOpKind where
  | uadd | usub | invert | notOp
deriving DecidableEq, Repr

/-- The expression nodes `ast.parse(..., mode="eval")` can produce that
matter to `_eval_node`: the four handled forms plus the rejected ones. -/
inductive PyExpr where
  | const (c : PyConst)
  | name (id : String)
  | binOp (op : BinOpKind) (l r : PyExpr)
  | unaryOp (op : UnaryOpKind) (e : PyExpr)
  | call (f : PyExpr) (arg : PyExpr)
  | attrAccess (e : PyExpr) (attr : String)
  | compare (l r : PyExpr)
  | subscript (e : PyExpr) (idx : PyExpr)
  | boolOp (l r : PyExpr)
  | ifExp (c t e : PyExpr)

/-- The evaluator's failures.  `notRepresentable` is a modeling artifact:
a non-integer exponent produces an irrational float in Python, which exact
rationals cannot carry; C10 only needs that such cases are not extra
`ok` results. -/
inductive CalcError where
  | valueError (msg : String)
  | zeroDivision
  | notRepresentable
deriving DecidableEq, Repr

/-- `float(value)` for the constants accepted by
`isinstance(node.value, (int, float))` — `int`, `float` and `bool`. -/
def constNumValue : PyConst → Option ℚ
  | .int n => some (n : ℚ)
  | .float q => some q
  | .bool b => some (if b then 1 else 0)
  | _ => none

/-- `operator.pow` on our rational carrier. -/
def ratPow (a b : ℚ) : Except CalcError ℚ :=
  if b.den = 1 then
    if a = 0 ∧ b.num < 0 then .error .zeroDivision
    else .ok (a ^ b.num)
  else .error .notRepresentable

/-- `ALLOWED_BIN_OPS`: the seven whitelisted operators with their
semantics; every other operator kind is absent. Python's float `%` and
`//` are floor-based, matching `Int.floor` on rationals. -/
def allowedBinOp : BinOpKind → Option (ℚ → ℚ → Except CalcError ℚ)
  | .add => some fun a b => .ok (a + b)
  | .sub => some fun a b => .ok (a - b)
  | .mult => some fun a b => .ok (a * b)
  | .div => some fun a b =>
      if b = 0 then .error .zeroDivision else .ok (a / b)
  | .pow => some ratPow
  | .mod => some fun a b =>
      if b = 0 then .error .zeroDivision else .ok (a - b * (⌊a / b⌋ : ℚ))
  | .floorDiv => some fun a b =>
      if b = 0 then .error .zeroDivision else .ok ((⌊a / b⌋ : ℚ))
  | _ => none

/-- `ALLOWED_UNARY_OPS`: unary plus and minus only. -/
def allowedUnaryOp : UnaryOpKind → Option (ℚ → ℚ)
  | .uadd => some fun a => a
  | .usub => some fun a => -a
  | _ => none

/-- `_eval_node(node, variables)` from `safe_calc.py`. -/
def eval_node (vars : List (String × ℚ)) : PyExpr → Except CalcError ℚ
  | .const c =>
    match constNumValue c with
    | some q => .ok q
    | none => .error (.valueError "Unsupported constant type")
  | .name id =>
    match vars.lookup id with
    | some q => .ok q
    | none => .error (.valueError "Unknown variable")
  | .binOp op l r =>
    match allowedBinOp op with
    | none => .error (.valueError "Unsupported operator")
    | some f =>
      match eval_node vars l with
      | .error e => .error e
      | .ok a =>
        match eval_node vars r with
        | .error e => .error e
        | .ok b => f a b
  | .unaryOp op e =>
    match allowedUnaryOp op with
    | none => .error (.valueError "Unsupported unary operator")
    | some f =>
      match eval_node vars e with
      | .error e => .error e
      | .ok a => .ok (f a)
  | .call _ _ => .error (.valueError "Unsupported expression node")
  | .attrAccess _ _ => .error (.valueError "Unsupported expression node")
  | .compare _ _ => .error (.valueError "Unsupported expression node")
  | .subscript _ _ => .error (.valueError "Unsupported expression node")
  | .boolOp _ _ => .error (.valueError "Unsupported expression node")
  | .ifExp _ _ _ => .error (.valueError "Unsupported expression node")

/-- The allow-list the claim describes, as a predicate over whole
expressions: numeric constants, bound names, whitelisted binary and unary
operators, recursively. -/
def allowedExpr (vars : List (String × ℚ)) : PyExpr → Bool
  | .const c => (constNumValue c).isSome
  | .name id => (vars.lookup id).isSome
  | .binOp op l r =>
    (allowedBinOp op).isSome && allowedExpr vars l && allowedExpr vars r
  | .unaryOp op e => (allowedUnaryOp op).isSome && allowedExpr vars e
  | .call _ _ => false
  | .attrAccess _ _ => false
  | .compare _ _ => false
  | .subscript _ _ => false
  | .boolOp _ _ => false
  | .ifExp _ _ _ => false

/-- The node-level rejection test: true exactly for the forms outside the
allow-list at the root — calls, attributes, comparisons, subscripts,
boolean operators, conditionals, non-numeric constants, unknown names,
non-whitelisted operators. -/
def rootDisallowed (vars : List (String × ℚ)) : PyExpr → Bool
  | .const c => (constNumValue c).isNone
  | .name id => (vars.lookup id).isNone
  | .binOp op _ _ => (allowedBinOp op).isNone
  | .unaryOp op _ => (allowedUnaryOp op).isNone
  | .call _ _ => true
  | .attrAccess _ _ => true
  | .compare _ _ => true
  | .subscript _ _ => true
  | .boolOp _ _ => true
  | .ifExp _ _ _ => true

/-- C10: `_eval_node` evaluates only numeric constants, bound names, the
seven whitelisted binary operators and unary plus/minus — every successful
evaluation certifies the whole expression is inside that allow-list — and
every expression whose root form falls outside the allow-list (function
calls, attribute access, comparisons, subscripts, boolean operators,
conditionals, non-numeric constants, unknown names, non-whitelisted
operators) is rejected with a ValueError instead of being evaluated. -/
theorem C10_eval_node_allowlist (vars : List (String × ℚ)) (e : PyExpr) :
    (∀ q, eval_node vars e = .ok q → allowedExpr vars e = true) ∧
    (rootDisallowed vars e = true →
      ∃ msg, eval_node vars e = .error (.valueError msg)) := by
  induction e with
  | const c =>
    constructor
    · intro q h
      rw [eval_node] at h
      rw [allowedExpr]
      match hc : constNumValue c with
      | some v => simp
      | none => rw [hc] at h; cases h
    · intro hroot
      rw [rootDisallowed, Option.isNone_iff_eq_none] at hroot
      exact ⟨_, by rw [eval_node, hroot]⟩
  | name id =>
    constructor
    · intro q h
      rw [eval_node] at h
      rw [allowedExpr]
      match hc : vars.lookup id with
      | some v => simp
      | none => rw [hc] at h; cases h
    · intro hroot
      rw [rootDisallowed, Option.isNone_iff_eq_none] at hroot
      exact ⟨_, by rw [eval_node, hroot]⟩
  | binOp op l r ihl ihr =>
    constructor
    · intro q h
      rw [eval_node] at h
      rw [allowedExpr]
      match hop : allowedBinOp op with
      | none => rw [hop] at h; cases h
      | some f =>
        rw [hop] at h
        match hl : eval_node vars l with
        | .error e => rw [hl] at h; cases h
        | .ok a =>
          rw [hl] at h
          match hr : eval_node vars r with
          | .error e => rw [hr] at h; cases h
          | .ok b =>
            simp [hop, ihl.1 a hl, ihr.1 b hr]
    · intro hroot
      rw [rootDisallowed, Option.isNone_iff_eq_none] at hroot
      exact ⟨_, by rw [eval_node, hroot]⟩
  | unaryOp op e ih =>
    constructor
    · intro q h
      rw [eval_node] at h
      rw [allowedExpr]
      match hop : allowedUnaryOp op with
      | none => rw [hop] at h; cases h
      | some f =>
        rw [hop] at h
        match he : eval_node vars e with
        | .error e1 => rw [he] at h; cases h
        | .ok a => simp [hop, ih.1 a he]
    · intro hroot
      rw [rootDisallowed, Option.isNone_iff_eq_none] at hroot
      exact ⟨_, by rw [eval_node, hroot]⟩
  | call f arg ihf iha =>
    exact ⟨fun q h => (by rw [eval_node] at h; cases h),
      fun hr => ⟨"Unsupported expression node", by rw [eval_node]⟩⟩
  | attrAccess e attr ih =>
    exact ⟨fun q h => (by rw [eval_node] at h; cases h),
      fun hr => ⟨"Unsupported expression node", by rw [eval_node]⟩⟩
  | compare l r ihl ihr =>
    exact ⟨fun q h => (by rw [eval_node] at h; cases h),
      fun hr => ⟨"Unsupported expression node", by rw [eval_node]⟩⟩
  | subscript e idx ihe ihi =>
    exact ⟨fun q h => (by rw [eval_node] at h; cases h),
      fun hr => ⟨"Unsupported expression node", by rw [eval_node]⟩⟩
  | boolOp l r ihl ihr =>
    exact ⟨fun q h => (by rw [eval_node] at h; cases h),
      fun hr => ⟨"Unsupported expression node", by rw [eval_node]⟩⟩
  | ifExp c t e ihc iht ihe =>
    exact ⟨fun q h => (by rw [eval_node] at h; cases h),
      fun hr => ⟨"Unsupported expression node", by rw [eval_node]⟩⟩

/-- Witness for C10: `1 + 2` evaluates and is certified inside the
allow-list; the call `open("x")` and the string constant are rejected with
a ValueError. -/
theorem C10_eval_node_allowlist_witness :
    allowedExpr [] (.binOp .add (.const (.int 1)) (.const (.int 2))) = true ∧
    (∃ msg, eval_node [] (.call (.name "open") (.const (.str "x"))) =
      .error (.valueError msg)) ∧
    (∃ msg, eval_node [] (.const (.str "x")) = .error (.valueError msg)) :=
  ⟨(C10_eval_node_allowlist []
      (.binOp .add (.const (.int 1)) (.const (.int 2)))).1
      (((1 : Int) : ℚ) + ((2 : Int) : ℚ)) rfl,
   (C10_eval_node_allowlist [] (.call (.name "open") (.const (.str "x")))).2
      rfl,
   (C10_eval_node_allowlist [] (.const (.str "x"))).2 rfl⟩

end CfstBatch2
